import Mathlib

/-!
# Verification of the tollgate-installer core services

Shallow embedding of the OpenTollGate/tollgate-installer Electron services
(`src/electron/services/installer-engine.ts`, `ssh-connector.ts`,
`network-scanner.ts` and `src/electron/main.ts`) together with proofs about
the claims of the natural-language specification.

Conventions of the embedding:
* JavaScript promise rejections / thrown exceptions are modelled with
  `Except String`; a caught exception corresponds to matching on the
  `.error` case.
* Optional / possibly-`undefined` JS fields are modelled with `Option`.
* The outcome of each external effect (SSH command, file download, TCP
  probe, ...) is supplied by an explicit environment record, so that the
  control flow of the TypeScript functions becomes a pure function of the
  environment.
* IPv4 addresses are the strings the code manipulates; `fromLong` mirrors
  the `ip.fromLong` rendering used by the scanner.
-/

deriving instance DecidableEq for Except

set_option maxRecDepth 8000

namespace TollGate

/-! ## Data model (ssh-connector.ts / installer-engine.ts)

`RouterInfo` is the value produced by `JSON.parse` of the output of
`ubus call system board` (ssh-connector.ts `getRouterInfo`).  Although the
TypeScript interface declares `board_name : string`, the parsed JSON may
lack any field, so every field is modelled as optional. -/

structure RouterReleaseInfo where
  distribution : Option String
  deriving Repr, DecidableEq

structure RouterInfo where
  board_name : Option String
  system : Option String
  model : Option String
  release : Option RouterReleaseInfo
  deriving Repr, DecidableEq

/-- JS falsiness of an optional string: `undefined` and `""` are falsy. -/
def strFalsy : Option String → Bool
  | none => true
  | some s => s == ""

/-- JS truthiness of an optional string (`!!x`). -/
def strTruthy (o : Option String) : Bool := !(strFalsy o)

/-- JS `x || d` for an optional string: a falsy value falls back to `d`. -/
def jsOr (o : Option String) (d : String) : String :=
  match o with
  | none => d
  | some s => if s == "" then d else s

/-- Boolean substring test (JS `String.prototype.includes`). -/
def strContains (hay needle : String) : Bool :=
  hay.data.tails.any (fun t => needle.data.isPrefixOf t)

/-- ASCII lowering of one character; the distribution markers compared by the
engine are ASCII, where this agrees with JS `toLowerCase`. -/
def charToLower (c : Char) : Char :=
  if 65 ≤ c.toNat ∧ c.toNat ≤ 90 then Char.ofNat (c.toNat + 32) else c

/-- `String.prototype.toLowerCase` (on ASCII strings). -/
def strToLower (s : String) : String := ⟨s.data.map charToLower⟩

/-! ## Release events (installer-engine.ts)

`install` receives a serialized Nostr event and deserializes it with
`NDKEvent.deserialize`; the only part of the event the engine reads is its
tag list, via `getMatchingTags('url')?.[0]?.[1]`. -/

structure ReleaseEvent where
  tags : List (List String)
  deriving Repr, DecidableEq

/-- `NDKEvent.getMatchingTags(name)`: the tags whose first element is `name`. -/
def getMatchingTags (ev : ReleaseEvent) (name : String) : List (List String) :=
  ev.tags.filter (fun t => t.head? == some name)

/-- `releaseEvent.getMatchingTags('url')?.[0]?.[1]` from installer-engine.ts. -/
def firmwareUrlOf (ev : ReleaseEvent) : Option String :=
  ((getMatchingTags ev "url").head?).bind (fun t => t[1]?)

/-! ## The install environment

One record field per external effect performed by `InstallerEngine.install`,
in program order.  `Except.error e` models a rejected promise carrying the
message `e`. -/

structure InstallEnv where
  /-- Result of `sshConnector.getRouterInfo(ip)`; `none` models `undefined`
  (that method catches all of its own errors). -/
  getRouterInfo : Option RouterInfo
  /-- Result of `downloadFile(firmwareUrl)`: a local path, or a rejection. -/
  download : Except String String
  /-- Result of `sshConnector.transferFile(...)` (a boolean, never throws). -/
  transferFile : Bool
  /-- Connection-level failure of `executeRemoteCommand(ip, "ls -l ...")`:
  `some e` if the exec itself rejects, `none` if the command ran to stream
  close (whatever its exit status). -/
  verifyConn : Option String
  /-- Whether `/tmp/firmware-update.bin` exists on the device. -/
  firmwareFilePresent : Bool
  /-- Outcome of `executeRemoteCommand(ip, "sysupgrade -n ...")`. -/
  sysupgrade : Except String Unit
  /-- Result of `pollForAvailability(ip, 30, 5000)` (a boolean, never throws). -/
  pollForAvailability : Bool
  /-- Connection-level failure of the final `executeRemoteCommand`. -/
  finalConn : Option String
  /-- Content of `/etc/tollgate-version` on the rebooted device, if present. -/
  tollgateVersionFile : Option String
  deriving Repr, DecidableEq

/-- Stdout of `ls -l /tmp/firmware-update.bin` on the device.  When the file
is missing, `ls` prints only to stderr and exits nonzero; `executeCommand`
(ssh-connector.ts) resolves with the accumulated stdout on stream `close`
and inspects neither stderr nor the exit status, so the missing-file case
resolves with the empty string instead of rejecting. -/
def lsStdout (present : Bool) : String :=
  if present then "-rw-r--r--    1 root     root     /tmp/firmware-update.bin" else ""

/-- The verification exec of install step 5: it rejects only on a
connection-level failure. -/
def verifyExec (env : InstallEnv) : Except String String :=
  match env.verifyConn with
  | some e => Except.error e
  | none => Except.ok (lsStdout env.firmwareFilePresent)

/-- Stdout of `cat /etc/tollgate-version 2>/dev/null || echo "Not TollGate OS"`. -/
def versionStdout (env : InstallEnv) : String :=
  match env.tollgateVersionFile with
  | some content => content
  | none => "Not TollGate OS\n"

/-- The final verification exec of install step 8. -/
def finalVerifyExec (env : InstallEnv) : Except String String :=
  match env.finalConn with
  | some e => Except.error e
  | none => Except.ok (versionStdout env)

/-- Terminal result of `InstallerEngine.install` (interface `InstallStatus`). -/
structure InstallStatus where
  success : Bool
  step : String
  progress : Nat
  error : Option String := none
  deriving Repr, DecidableEq

/-- `routerInfo.release?.distribution?.toLowerCase() === 'openwrt'`. -/
def isOpenwrtB (ri : RouterInfo) : Bool :=
  ((ri.release.bind (fun r => r.distribution)).map strToLower) == some "openwrt"

/-- The body of `InstallerEngine.install` (everything inside its `try`),
returning the terminal `InstallStatus` together with the ordered list of
stages passed to `updateStatus` (the engine's status stream).  Each return
branch mirrors one `return` statement of installer-engine.ts; the trace
literal of a branch lists the `updateStatus` calls executed before it. -/
def install (ev : ReleaseEvent) (env : InstallEnv) : InstallStatus × List String :=
  -- Step 1: updateStatus('preparing', 10), then getRouterInfo
  match env.getRouterInfo with
  | none =>
    (⟨false, "compatibility-check", 0, some "Unable to get router information"⟩,
      ["preparing"])
  | some routerInfo =>
    if !(isOpenwrtB routerInfo) || !(strTruthy routerInfo.board_name) then
      (⟨false, "compatibility-check", 0,
        some ("Router is not running OpenWrt or missing board info: "
          ++ jsOr routerInfo.system "unknown")⟩,
        ["preparing"])
    else
      -- Step 2: extract the firmware URL
      if strFalsy (firmwareUrlOf ev) then
        (⟨false, "download-preparation", 15,
          some "Firmware URL not found in release information"⟩,
          ["preparing"])
      else
        -- Step 3: updateStatus('downloading', 20), then downloadFile
        match env.download with
        | Except.error e =>
          (⟨false, "downloading", 25, some ("Failed to download firmware: " ++ e)⟩,
            ["preparing", "downloading"])
        | Except.ok _localFirmwarePath =>
          -- Step 4: updateStatus('transferring', 40), then transferFile
          if !env.transferFile then
            (⟨false, "transferring", 50, some "Failed to transfer firmware to router"⟩,
              ["preparing", "downloading", "transferring"])
          else
            -- Step 5: updateStatus('verifying', 60), then ls -l of the remote path
            match verifyExec env with
            | Except.error e =>
              (⟨false, "verifying", 65,
                some ("Failed to verify firmware on router: " ++ e)⟩,
                ["preparing", "downloading", "transferring", "verifying"])
            | Except.ok _verifyResult =>
              -- Step 6: updateStatus('installing', 70), then
              -- executeRemoteCommand(ip, "sysupgrade -n ...") = env.sysupgrade.
              -- The surrounding try/catch only logs a failure ("It's normal for
              -- the connection to drop during upgrade"), so the value of
              -- env.sysupgrade is ignored and both outcomes continue identically.
              -- Step 7: updateStatus('waiting-for-reboot', 80), then poll
              if !env.pollForAvailability then
                (⟨false, "waiting-for-reboot", 85,
                  some "Router did not come back online after firmware upgrade"⟩,
                  ["preparing", "downloading", "transferring", "verifying",
                    "installing", "waiting-for-reboot"])
              else
                -- Step 8: updateStatus('verifying-installation', 90), then cat
                match finalVerifyExec env with
                | Except.error e =>
                  (⟨false, "verifying-installation", 95,
                    some ("Failed to verify TollGate OS installation: " ++ e)⟩,
                    ["preparing", "downloading", "transferring", "verifying",
                      "installing", "waiting-for-reboot", "verifying-installation"])
                | Except.ok versionInfo =>
                  if strContains versionInfo "Not TollGate OS" then
                    (⟨false, "verifying-installation", 95,
                      some "Router did not boot into TollGate OS after upgrade"⟩,
                      ["preparing", "downloading", "transferring", "verifying",
                        "installing", "waiting-for-reboot", "verifying-installation"])
                  else
                    (⟨true, "complete", 100, none⟩,
                      ["preparing", "downloading", "transferring", "verifying",
                        "installing", "waiting-for-reboot", "verifying-installation"])

/-- `InstallerEngine.install(ip, releaseData)` as invoked over IPC:
`NDKEvent.deserialize` runs at the top of `install`, *before* the `try`
block, so a deserialization failure propagates out of `install` as a
rejected promise (`Except.error`) instead of a structured result. -/
def installRun (deserialized : Except String ReleaseEvent) (env : InstallEnv) :
    Except String (InstallStatus × List String) :=
  match deserialized with
  | Except.error e => Except.error e
  | Except.ok ev => Except.ok (install ev env)

/-- Whether an invocation of `install` settled with a structured result
(rather than letting an exception propagate to the caller). -/
def settledStructured : Except String (InstallStatus × List String) → Bool
  | Except.ok _ => true
  | Except.error _ => false

/-! ## Helper lemmas about the verification exec -/

theorem verifyExec_eq_error_iff (env : InstallEnv) (e : String) :
    verifyExec env = Except.error e ↔ env.verifyConn = some e := by
  cases h : env.verifyConn <;> simp [verifyExec, h]

theorem verifyExec_eq_ok_iff (env : InstallEnv) (v : String) :
    verifyExec env = Except.ok v ↔
      env.verifyConn = none ∧ v = lsStdout env.firmwareFilePresent := by
  cases h : env.verifyConn <;> simp [verifyExec, h, eq_comm]

/-! ## Concrete fixtures for witnesses and counterexamples -/

/-- A release event carrying a firmware URL tag. -/
def evUrl : ReleaseEvent := ⟨[["url", "https://example.com/fw.bin"]]⟩

/-- A board-info record of an OpenWrt device. -/
def riOpenwrt : RouterInfo :=
  ⟨some "glinet,gl-mt300n-v2", some "MediaTek MT7628AN ver:1 eco:2",
    some "GL.iNet GL-MT300N-V2", some ⟨some "OpenWrt"⟩⟩

/-- A board-info record whose distribution marker is not OpenWrt. -/
def riLede : RouterInfo :=
  ⟨some "tplink,archer-c7-v2", none, none, some ⟨some "LEDE"⟩⟩

/-- An environment in which every stage effect succeeds except the sysupgrade
exec, which rejects with a connection-closed error (the expected behaviour of
a rebooting device). -/
def envHappy : InstallEnv :=
  { getRouterInfo := some riOpenwrt
  , download := Except.ok "/tmp/tollgate-firmware/fw.bin"
  , transferFile := true
  , verifyConn := none
  , firmwareFilePresent := true
  , sysupgrade := Except.error "Connection closed by remote host"
  , pollForAvailability := true
  , finalConn := none
  , tollgateVersionFile := some "TollGateOS v0.1.0\n" }

/-- Like `envHappy`, but the transferred firmware file is absent from
`/tmp/firmware-update.bin` on the device. -/
def envNoFile : InstallEnv := { envHappy with firmwareFilePresent := false }

/-- A compatibility-gate environment: the device answers the board query with
a non-OpenWrt distribution marker. -/
def envLede : InstallEnv := { envHappy with getRouterInfo := some riLede }

/-! ## C1: an error during the installing stage is benign -/

/-- C1: for every install run that reaches the installing stage, if the
sysupgrade exec raises a connection-closed or any other error during that
exact stage, the run does not terminate with a failure at `installing`; the
pipeline proceeds to the `waiting-for-reboot` stage. -/
theorem C1_installing_error_is_benign (ev : ReleaseEvent) (env : InstallEnv) (e : String)
    (hfail : env.sysupgrade = Except.error e)
    (hreach : "installing" ∈ (install ev env).2) :
    (install ev env).1.step ≠ "installing" ∧ "waiting-for-reboot" ∈ (install ev env).2 := by
  rcases hI : install ev env with ⟨st, tr⟩
  rw [hI] at hreach
  unfold install at hI
  repeat' split at hI
  all_goals (injection hI with h1 h2; subst h1; subst h2; simp_all)

/-- C1 witness: a concrete run that reaches `installing`, whose sysupgrade
exec rejects, and which proceeds to `waiting-for-reboot`. -/
theorem C1_installing_error_is_benign_witness :
    envHappy.sysupgrade = Except.error "Connection closed by remote host" ∧
    "installing" ∈ (install evUrl envHappy).2 ∧
    ((install evUrl envHappy).1.step ≠ "installing" ∧
      "waiting-for-reboot" ∈ (install evUrl envHappy).2) :=
  ⟨by decide, by decide,
    C1_installing_error_is_benign evUrl envHappy "Connection closed by remote host"
      (by decide) (by decide)⟩

/-! ## C2: the compatibility check is a hard gate -/

/-- C2: for every address and every release event (regardless of its
validity), if the device's board info lacks an OpenWrt distribution marker or
has an empty board identifier, `install` returns a terminal result with
`success = false`, step `compatibility-check` and progress 0. -/
theorem C2_compatibility_hard_gate (ev : ReleaseEvent) (env : InstallEnv) (ri : RouterInfo)
    (hri : env.getRouterInfo = some ri)
    (hbad : isOpenwrtB ri = false ∨ strTruthy ri.board_name = false) :
    (install ev env).1.success = false ∧
    (install ev env).1.step = "compatibility-check" ∧
    (install ev env).1.progress = 0 := by
  unfold install
  rw [hri]
  rcases hbad with h | h <;> simp [h]

/-- C2 witness: a device reporting the distribution marker `LEDE` is rejected
at the compatibility gate with progress 0 even though the release event is
perfectly valid. -/
theorem C2_compatibility_hard_gate_witness :
    envLede.getRouterInfo = some riLede ∧
    (isOpenwrtB riLede = false ∨ strTruthy riLede.board_name = false) ∧
    ((install evUrl envLede).1.success = false ∧
      (install evUrl envLede).1.step = "compatibility-check" ∧
      (install evUrl envLede).1.progress = 0) :=
  ⟨by decide, Or.inl (by decide),
    C2_compatibility_hard_gate evUrl envLede riLede (by decide) (Or.inl (by decide))⟩

/-! ## C3: failures and the install boundary

The claim states that `install` never throws past its boundary.  That is
false: `NDKEvent.deserialize` runs at the top of `install`, *before* the
`try` block (installer-engine.ts line 80), so a release-descriptor string
that fails to deserialize escapes as a rejected promise. -/

/-- C3 counterexample: a malformed release descriptor whose deserialization
rejects makes `install` itself reject — the caller receives a propagated
exception, not a structured terminal result with stage and progress. -/
theorem C3_boundary_counterexample :
    installRun (Except.error "Unexpected end of JSON input") envHappy
        = Except.error "Unexpected end of JSON input" ∧
    settledStructured (installRun (Except.error "Unexpected end of JSON input") envHappy)
        = false := by
  constructor <;> rfl

/-- C3 amended: once the release descriptor has been deserialized, `install`
never throws past its boundary: every failure is caught and converted into a
structured terminal result carrying a stage name, a progress percentage and,
whenever the run is not successful, a human-readable error message. -/
theorem C3_boundary_amended (ev : ReleaseEvent) (env : InstallEnv) :
    installRun (Except.ok ev) env = Except.ok (install ev env) ∧
    (install ev env).1.step ∈
      ["compatibility-check", "download-preparation", "downloading", "transferring",
        "verifying", "waiting-for-reboot", "verifying-installation", "complete"] ∧
    ((install ev env).1.error.isSome || (install ev env).1.success) = true := by
  refine ⟨rfl, ?_⟩
  rcases hI : install ev env with ⟨st, tr⟩
  unfold install at hI
  repeat' split at hI
  all_goals (injection hI with h1 h2; subst h1; subst h2; simp_all)

/-! ## C8: the verifying stage

The claim states that `install` fails at `verifying` whenever the remote
file is absent.  That is false: the `ls -l` exec resolves with its collected
stdout on stream close whatever the exit status (`executeCommand` inspects
neither stderr nor the exit code), so a missing file yields `Except.ok ""`
and the pipeline continues; only a connection-level failure of the exec
aborts at `verifying`. -/

/-- C8 counterexample: with the remote firmware file absent (and the exec
able to run), install does not abort at `verifying`; the concrete run
continues through `installing` all the way to `complete`. -/
theorem C8_verifying_counterexample :
    envNoFile.firmwareFilePresent = false ∧
    "verifying" ∈ (install evUrl envNoFile).2 ∧
    (install evUrl envNoFile).1.step ≠ "verifying" ∧
    (install evUrl envNoFile).1 = ⟨true, "complete", 100, none⟩ := by
  refine ⟨rfl, by decide, by decide, by decide⟩

/-- C8 amended: for every run that reaches the verifying stage, `install`
terminates with a failure at `verifying` exactly when the verification exec
itself fails at the connection level; the existence of the remote file is
not checked (the listing's exit status and stderr are ignored), so the run
proceeds past `verifying` whenever the command executes. -/
theorem C8_verifying_aborts_iff_exec_fails (ev : ReleaseEvent) (env : InstallEnv)
    (hreach : "verifying" ∈ (install ev env).2) :
    ((install ev env).1.step = "verifying" ↔ env.verifyConn.isSome = true) := by
  rcases hI : install ev env with ⟨st, tr⟩
  rw [hI] at hreach
  unfold install at hI
  repeat' split at hI
  all_goals (injection hI with h1 h2; subst h1; subst h2)
  all_goals simp_all [verifyExec_eq_error_iff, verifyExec_eq_ok_iff]

/-- C8 amended witness: the counterexample run reaches `verifying` with a
healthy connection and does not stop there. -/
theorem C8_verifying_aborts_iff_exec_fails_witness :
    "verifying" ∈ (install evUrl envNoFile).2 ∧
    ((install evUrl envNoFile).1.step = "verifying" ↔ envNoFile.verifyConn.isSome = true) :=
  ⟨by decide, C8_verifying_aborts_iff_exec_fails evUrl envNoFile (by decide)⟩

/-! ## Network scanner (network-scanner.ts)

The currently wired scanner is `src/electron/services/network-scanner.ts`;
`src/unnamed/part_014` holds an earlier variant of the same class whose
`scan` still consulted the `default-gateway` package.  Both are embedded
below (`scanSubnetsForSsh`/`scan` for the current one, the `Legacy`
definitions for part_014). -/

/-- `ip.fromLong`: dotted-quad rendering of a 32-bit value (JS shifts apply
`ToUint32`, hence the initial reduction modulo `2 ^ 32`). -/
def fromLong (n : Nat) : String :=
  let m := n % 2 ^ 32
  toString (m / 2 ^ 24) ++ "." ++ toString (m / 2 ^ 16 % 256) ++ "."
    ++ toString (m / 2 ^ 8 % 256) ++ "." ++ toString (m % 256)

/-- `ip.toLong` on a dotted quad `a.b.c.d`. -/
def toLong (a b c d : Nat) : Nat := ((a * 256 + b) * 256 + c) * 256 + d

/-- `expandSubnet(subnetRange)` after the split on `/` and `parseInt` of the
mask: the CIDR string `subnet/m` arrives here as the numeric value of
`ip.toLong(subnet)` and the parsed integer mask.  Masks outside 16–30 are
rejected with an empty list; otherwise the loop
`for (let i = 1; i < numHosts - 1; i++) ips.push(ip.fromLong(base + i))`
renders every offset `1 ≤ i ≤ numHosts - 2`. -/
def expandSubnet (subnetLong : Nat) (mask : Nat) : List String :=
  if mask < 16 ∨ 30 < mask then []
  else (List.range (2 ^ (32 - mask) - 2)).map (fun i => fromLong (subnetLong + (i + 1)))

/-- The `RouterInfo` shape the scanner reads (`routerInfo.boardName`,
`routerInfo.architecture`); fields may be absent at runtime. -/
structure RouterInfoScan where
  boardName : Option String
  architecture : Option String
  deriving Repr, DecidableEq

structure ScanBoardRelease where
  distribution : String
  architecture : Option String
  deriving Repr, DecidableEq

/-- Result shape of `getOpenWrtBoardInfo`; the bare `{}` returned on failure
is the record with every field absent. -/
structure ScanBoardInfo where
  board_name : Option String := none
  model : Option String := none
  release : Option ScanBoardRelease := none
  deriving Repr, DecidableEq

/-- `ScanResult['meta']`: a plain JS object whose fields may each be absent. -/
structure ScanMeta where
  status : Option String := none
  isOpenwrt : Option Bool := none
  boardInfo : Option ScanBoardInfo := none
  routerInfo : Option RouterInfoScan := none
  isGateway : Option Bool := none
  deriving Repr, DecidableEq

structure ScanResult where
  ip : String
  sshOpen : Bool
  meta : Option ScanMeta := none
  deriving Repr, DecidableEq

/-- Environment of one scan: the outcome of each per-address effect, plus the
host's network configuration as the OS would report it (the current scanner
never consults the latter two fields; the legacy scanner reads
`defaultRoute`). -/
structure IfaceInfo where
  address : String
  netmask : String
  internal : Bool

structure ScanEnv where
  /-- `checkSshPort(ip)`: whether the raw TCP probe of port 22 succeeds. -/
  sshOpen : String → Bool
  /-- `sshConnector.getRouterInfo(ip)` as read by the scanner; `none` models
  `undefined` (also covering a thrown error, caught by the wrapper). -/
  routerInfo : String → Option RouterInfoScan
  /-- `os.networkInterfaces()`, as the OS would report it. -/
  interfaces : List IfaceInfo
  /-- The default-route gateway the `default-gateway` package would report. -/
  defaultRoute : Option String

/-- `getOpenWrtBoardInfo(ipAddress)`: `{}` when router info is unavailable
or the board name is the `error` sentinel, otherwise a board-info object
with a hardcoded `OpenWrt` distribution. -/
def getOpenWrtBoardInfo (env : ScanEnv) (ipAddress : String) : ScanBoardInfo :=
  match env.routerInfo ipAddress with
  | none => {}
  | some ri =>
    if ri.boardName == some "error" then {}
    else { board_name := ri.boardName, model := ri.boardName,
           release := some ⟨"OpenWrt", ri.architecture⟩ }

/-- `enrichDeviceWithSSHInfo(ipAddress)`: `{}` when `getRouterInfo` yields
nothing (or throws — caught inside), otherwise `{isOpenwrt, boardInfo,
routerInfo}` where `isOpenwrt` compares the board name against the `error`
and `disconnected` sentinels. -/
def enrichDeviceWithSSHInfo (env : ScanEnv) (ipAddress : String) : ScanMeta :=
  match env.routerInfo ipAddress with
  | none => {}
  | some ri =>
    let isOpenwrt := ri.boardName != some "error" && ri.boardName != some "disconnected"
    { isOpenwrt := some isOpenwrt
    , boardInfo := some (if isOpenwrt then getOpenWrtBoardInfo env ipAddress else {})
    , routerInfo := some ri }

/-- The per-address body shared verbatim by the hardcoded direct check and
the sweep loop of `scanSubnetsForSsh`: probe port 22; when open, initialize
`meta = {status: 'ready'}`, immediately overwrite it with the enrichment
result, then — since a JS object is always truthy — unconditionally set
`meta.isOpenwrt = true`, and push the entry. -/
def processAddr (env : ScanEnv) (ipAddress : String) : Option ScanResult :=
  if env.sshOpen ipAddress then
    -- let meta = { status: 'ready' } — discarded by the reassignment below
    -- meta = await this.enrichDeviceWithSSHInfo(ipAddress)
    -- if (meta) { meta.isOpenwrt = true } — an object is always truthy
    some { ip := ipAddress, sshOpen := true,
           meta := some { enrichDeviceWithSSHInfo env ipAddress with isOpenwrt := some true } }
  else none

/-- The addresses enumerated by the sweep loops: every expanded subnet
address except the hardcoded `192.168.8.1`, which the loop `continue`s
past before probing. -/
def sweepIps (subnetRanges : List (Nat × Nat)) : List String :=
  subnetRanges.flatMap (fun r => (expandSubnet r.1 r.2).filter (fun ip => ip != "192.168.8.1"))

structure SweepOutcome where
  results : List ScanResult
  probed : List String
  deriving Repr

/-- `scanSubnetsForSsh()`: first the explicit direct check of the hardcoded
address `192.168.8.1`, then the sweep of every configured range (skipping
that address); `probed` records the addresses given to `checkSshPort`, in
order. -/
def scanSubnetsForSsh (env : ScanEnv) (subnetRanges : List (Nat × Nat)) : SweepOutcome :=
  let ips := sweepIps subnetRanges
  { results := (processAddr env "192.168.8.1").toList ++ ips.filterMap (processAddr env)
  , probed := "192.168.8.1" :: ips }

/-- The duplicate-filter loop of `scan()`: push each entry whose `ip` has
not been seen yet. -/
def dedupByIp (seen : List String) : List ScanResult → List ScanResult
  | [] => []
  | r :: rest =>
    if r.ip ∈ seen then dedupByIp seen rest
    else r :: dedupByIp (r.ip :: seen) rest

/-- `NetworkScanner.scan()` of the current scanner: gateway detection is
completely disabled (`results` starts and stays empty before the sweep), so
the scan is the de-duplicated sweep outcome. -/
def scan (env : ScanEnv) (subnetRanges : List (Nat × Nat)) : List ScanResult :=
  dedupByIp [] (scanSubnetsForSsh env subnetRanges).results

/-- The sweep of the legacy scanner (src/unnamed/part_014): no hardcoded
address, no skip, entries pushed with no `meta`. -/
def scanSubnetsForSshLegacy (env : ScanEnv) (subnetRanges : List (Nat × Nat)) : SweepOutcome :=
  let ips := subnetRanges.flatMap (fun r => expandSubnet r.1 r.2)
  { results := ips.filterMap (fun ip => if env.sshOpen ip then some ⟨ip, true, none⟩ else none)
  , probed := ips }

/-- `scan()` of the legacy scanner (src/unnamed/part_014): probe the single
gateway address reported by the `default-gateway` package (when one is
reported), push it with `meta: {isGateway: true}` whatever the probe said,
then append the de-duplicated sweep results. -/
def scanLegacy (env : ScanEnv) (subnetRanges : List (Nat × Nat)) : SweepOutcome :=
  let base : List ScanResult :=
    match env.defaultRoute with
    | some g => [{ ip := g, sshOpen := env.sshOpen g, meta := some { isGateway := some true } }]
    | none => []
  let sub := scanSubnetsForSshLegacy env subnetRanges
  { results := base ++ dedupByIp (base.map (fun r => r.ip)) sub.results
  , probed := env.defaultRoute.toList ++ sub.probed }

/-- Modelled from the spec: `NetworkScanner.checkManualDevice` is invoked by
the `check-device` IPC handler in main.ts but its implementation is not
among the sources.  Per the spec it is "a single-address variant of steps
2–3 ... returns one enriched result or nothing": probe the address's SSH
port and, when reachable, return the enriched entry for it — which is
exactly the shared per-address body `processAddr`. -/
def checkManualDevice (env : ScanEnv) (ipAddress : String) : Option ScanResult :=
  processAddr env ipAddress

/-! ## Helper lemmas about the per-address body -/

theorem processAddr_ip (env : ScanEnv) (ipAddress : String) (r : ScanResult)
    (h : processAddr env ipAddress = some r) : r.ip = ipAddress := by
  unfold processAddr at h
  split at h
  · injection h with h2
    subst h2
    rfl
  · exact absurd h (by simp)

theorem processAddr_of_sshOpen (env : ScanEnv) (ipAddress : String)
    (h : env.sshOpen ipAddress = true) :
    processAddr env ipAddress
      = some { ip := ipAddress, sshOpen := true,
               meta := some { enrichDeviceWithSSHInfo env ipAddress with
                                isOpenwrt := some true } } := by
  unfold processAddr
  rw [h]
  simp

/-! ## C5: subnet expansion -/

/-- C5: for every CIDR `subnet/m` (arriving here as the numeric base address
and the parsed integer mask) with `16 ≤ m ≤ 30`, subnet expansion returns
exactly `2 ^ (32 - m) - 2` addresses, namely the rendering of every host
value strictly between the network address `base` and the broadcast address
`base + 2 ^ (32 - m) - 1`. -/
theorem C5_subnet_expansion_count (base m : Nat) (h16 : 16 ≤ m) (h30 : m ≤ 30) :
    (expandSubnet base m).length = 2 ^ (32 - m) - 2 ∧
    ∀ s : String, s ∈ expandSubnet base m ↔
      ∃ k : Nat, base < k ∧ k < base + (2 ^ (32 - m) - 1) ∧ s = fromLong k := by
  have hmask : ¬(m < 16 ∨ 30 < m) := by omega
  have hn : 4 ≤ 2 ^ (32 - m) := by
    calc (4 : Nat) = 2 ^ 2 := by norm_num
    _ ≤ 2 ^ (32 - m) := Nat.pow_le_pow_right (by norm_num) (by omega)
  unfold expandSubnet
  rw [if_neg hmask]
  refine ⟨by simp, fun s => ?_⟩
  simp only [List.mem_map, List.mem_range]
  constructor
  · rintro ⟨i, hi, rfl⟩
    exact ⟨base + (i + 1), by omega, by omega, rfl⟩
  · rintro ⟨k, hk1, hk2, rfl⟩
    refine ⟨k - base - 1, by omega, ?_⟩
    congr 1
    omega

/-- C5 witness: the `/28` block at 10.0.0.0 expands to `2 ^ 4 - 2` addresses. -/
theorem C5_subnet_expansion_count_witness :
    16 ≤ 28 ∧ 28 ≤ 30 ∧ (expandSubnet (toLong 10 0 0 0) 28).length = 2 ^ (32 - 28) - 2 :=
  ⟨by decide, by decide, (C5_subnet_expansion_count (toLong 10 0 0 0) 28 (by decide) (by decide)).1⟩

/-! ## C10: the hardcoded address 192.168.8.1 -/

/-- C10: on every scan the hardcoded address `192.168.8.1` is probed first,
before any configured subnet range is swept; it is skipped during the range
enumeration (so it is never probed again), and the sweep results contain
exactly the direct-check entry for it — if it is SSH-reachable, the single
enriched entry, otherwise nothing — hence it appears at most once. -/
theorem C10_hardcoded_address_probed_once (env : ScanEnv) (ranges : List (Nat × Nat)) :
    (scanSubnetsForSsh env ranges).probed.head? = some "192.168.8.1" ∧
    "192.168.8.1" ∉ (scanSubnetsForSsh env ranges).probed.tail ∧
    (scanSubnetsForSsh env ranges).results.filter (fun r => r.ip == "192.168.8.1")
        = (processAddr env "192.168.8.1").toList ∧
    (scanSubnetsForSsh env ranges).results.countP (fun r => r.ip == "192.168.8.1") ≤ 1 := by
  have hsweep : ∀ ip ∈ sweepIps ranges, ip ≠ "192.168.8.1" := by
    intro ip hip
    unfold sweepIps at hip
    simp only [List.mem_flatMap, List.mem_filter, bne_iff_ne, ne_eq] at hip
    obtain ⟨r, _, _, hne⟩ := hip
    exact hne
  have hfilter : List.filter (fun r => r.ip == "192.168.8.1")
      (List.filterMap (processAddr env) (sweepIps ranges)) = [] := by
    rw [List.filter_eq_nil_iff]
    intro r hr
    simp only [List.mem_filterMap] at hr
    obtain ⟨ip, hip, hpa⟩ := hr
    have := processAddr_ip env ip r hpa
    simp [this, hsweep ip hip]
  refine ⟨rfl, ?_, ?_, ?_⟩
  · show "192.168.8.1" ∉ sweepIps ranges
    intro h
    exact hsweep _ h rfl
  · show ((processAddr env "192.168.8.1").toList ++ _).filter _ = _
    rw [List.filter_append, hfilter, List.append_nil]
    cases h : processAddr env "192.168.8.1" with
    | none => simp
    | some r =>
      have := processAddr_ip env _ r h
      simp [this]
  · rw [List.countP_eq_length_filter]
    show (((processAddr env "192.168.8.1").toList ++ _).filter _).length ≤ 1
    rw [List.filter_append, hfilter, List.append_nil]
    cases h : processAddr env "192.168.8.1" with
    | none => simp
    | some r =>
      calc (List.filter (fun r => r.ip == "192.168.8.1") [r]).length
          ≤ [r].length := List.length_filter_le _ _
        _ ≤ 1 := by simp

/-! ## C6: enrichment failure

The claim states that an SSH-reachable device whose enrichment fails is
listed with `status: 'ready'` and `isOpenwrt: false`.  The listing part is
true, the marking is not: the initial `{status: 'ready'}` object is
overwritten by the enrichment result (which carries no `status` field), and
the guard `if (meta)` is a truthiness test on an object — always true — so
`meta.isOpenwrt = true` is set unconditionally. -/

/-- Fixture: one `/30` range at 10.0.0.0. -/
def rangesA : List (Nat × Nat) := [(toLong 10 0 0 0, 30)]

/-- Fixture: 10.0.0.1 accepts TCP on port 22 but board identification yields
nothing (enrichment failure); every other address is dark. -/
def envEnrichFail : ScanEnv :=
  { sshOpen := fun ip => ip == "10.0.0.1"
  , routerInfo := fun _ => none
  , interfaces := []
  , defaultRoute := none }

/-- C6 counterexample: the SSH-reachable device 10.0.0.1 whose enrichment
failed is listed, but its meta has no `status` field (in particular not
`'ready'`) and `isOpenwrt` is `true`, not `false` as claimed. -/
theorem C6_enrichment_failure_counterexample :
    envEnrichFail.sshOpen "10.0.0.1" = true ∧
    envEnrichFail.routerInfo "10.0.0.1" = none ∧
    ((scanSubnetsForSsh envEnrichFail rangesA).results.map
        (fun r => (r.ip, r.meta.map (fun m => (m.status, m.isOpenwrt)))))
      = [("10.0.0.1", some (none, some true))] := by decide

/-- C6 amended: an SSH-reachable probed address is never dropped — it is
always listed with `sshOpen = true` — but its meta is the enrichment result
(whose `status` field is absent, the initial `'ready'` having been
overwritten) with `isOpenwrt` unconditionally set to `true`. -/
theorem C6_reachable_device_always_listed (env : ScanEnv) (ranges : List (Nat × Nat))
    (ipAddress : String)
    (hip : ipAddress ∈ (scanSubnetsForSsh env ranges).probed)
    (hssh : env.sshOpen ipAddress = true) :
    ({ ip := ipAddress, sshOpen := true,
       meta := some { enrichDeviceWithSSHInfo env ipAddress with
                        isOpenwrt := some true } } : ScanResult)
      ∈ (scanSubnetsForSsh env ranges).results := by
  have hpa := processAddr_of_sshOpen env ipAddress hssh
  simp only [scanSubnetsForSsh, List.mem_cons] at hip
  unfold scanSubnetsForSsh
  simp only [List.mem_append]
  rcases hip with h | h
  · left
    subst h
    rw [hpa]
    simp
  · right
    rw [List.mem_filterMap]
    exact ⟨ipAddress, h, hpa⟩

/-- C6 amended witness: the counterexample device is indeed listed. -/
theorem C6_reachable_device_always_listed_witness :
    "10.0.0.1" ∈ (scanSubnetsForSsh envEnrichFail rangesA).probed ∧
    envEnrichFail.sshOpen "10.0.0.1" = true ∧
    ({ ip := "10.0.0.1", sshOpen := true,
       meta := some { enrichDeviceWithSSHInfo envEnrichFail "10.0.0.1" with
                        isOpenwrt := some true } } : ScanResult)
      ∈ (scanSubnetsForSsh envEnrichFail rangesA).results :=
  ⟨by decide, by decide,
    C6_reachable_device_always_listed envEnrichFail rangesA "10.0.0.1" (by decide) (by decide)⟩

/-! ## C7: direct-connection heuristics

The claim describes an interface-enumeration heuristic (first usable =
network + 1, last usable = broadcast − 1, union with parsed default-route
gateways) that neither scanner performs: the current `scan` has gateway
detection completely disabled, and the legacy variant only probes the one
gateway reported by the `default-gateway` package. -/

/-- Fixture: one `/30` range at 192.168.8.0. -/
def rangesB : List (Nat × Nat) := [(toLong 192 168 8 0, 30)]

/-- Fixture: the host sits on 10.1.2.0/24 (so the conventional gateway
position — first usable address — is 10.1.2.1, which is also the OS default
route and answers on port 22), yet the configured sweep covers only
192.168.8.0/30. -/
def envIface : ScanEnv :=
  { sshOpen := fun ip => ip == "10.1.2.1"
  , routerInfo := fun _ => none
  , interfaces := [⟨"10.1.2.3", "255.255.255.0", false⟩]
  , defaultRoute := some "10.1.2.1" }

/-- C7 counterexample: though 10.1.2.1 is the first usable address of the
local interface's subnet, the OS default-route gateway, and SSH-reachable,
the scan never probes it and returns nothing — no direct-connection
heuristic runs. -/
theorem C7_no_heuristics_counterexample :
    envIface.interfaces.map (fun i => (i.address, i.netmask, i.internal))
        = [("10.1.2.3", "255.255.255.0", false)] ∧
    fromLong (toLong 10 1 2 0 + 1) = "10.1.2.1" ∧
    envIface.defaultRoute = some "10.1.2.1" ∧
    envIface.sshOpen "10.1.2.1" = true ∧
    (scanSubnetsForSsh envIface rangesB).probed = ["192.168.8.1", "192.168.8.2"] ∧
    "10.1.2.1" ∉ (scanSubnetsForSsh envIface rangesB).probed ∧
    scan envIface rangesB = [] := by decide

/-- C7 amended: the current scan consults neither the local interfaces nor
the default route — its outcome is invariant under both — and begins with
the hardcoded probe of 192.168.8.1 before the sweep; the legacy scan
(part_014) prepends exactly one probe of the reported default-route gateway
to the sweep, and likewise derives no candidates from the interfaces. -/
theorem C7_scan_ignores_host_network_config (env : ScanEnv) (ranges : List (Nat × Nat))
    (ifs : List IfaceInfo) (dr : Option String) :
    scanSubnetsForSsh { env with interfaces := ifs, defaultRoute := dr } ranges
        = scanSubnetsForSsh env ranges ∧
    scan { env with interfaces := ifs, defaultRoute := dr } ranges = scan env ranges ∧
    (scanSubnetsForSsh env ranges).probed.head? = some "192.168.8.1" ∧
    (scanLegacy env ranges).probed
        = env.defaultRoute.toList ++ (scanSubnetsForSshLegacy env ranges).probed :=
  ⟨rfl, rfl, rfl, rfl⟩

/-! ## C9: the manual device check -/

/-- C9: for every manually supplied address, `checkManualDevice` returns
either exactly one enriched device entry for that address (the
single-address variant of the probe-and-enrich steps) or nothing; there is
no other outcome. -/
theorem C9_check_device_one_or_none (env : ScanEnv) (ipAddress : String) :
    (checkManualDevice env ipAddress = none ∧ env.sshOpen ipAddress = false) ∨
    (checkManualDevice env ipAddress
        = some { ip := ipAddress, sshOpen := true,
                 meta := some { enrichDeviceWithSSHInfo env ipAddress with
                                  isOpenwrt := some true } } ∧
      env.sshOpen ipAddress = true) := by
  cases h : env.sshOpen ipAddress
  · left
    refine ⟨?_, rfl⟩
    unfold checkManualDevice processAddr
    rw [h]
    rfl
  · right
    exact ⟨processAddr_of_sshOpen env ipAddress h, rfl⟩

/-! ## C4: the SSH connection registry (ssh-connector.ts)

`SshConnector` keeps a per-process `Map` from address to ssh2 `Client`.
The state below tracks that map together with the set of clients whose
sockets are still open; clients are identified by creation order
(`nextClient` is the next fresh identity).  `connections` is an association
list whose key uniqueness is part of the invariant; `mapGet`/`mapDelete`
are `Map.get`/`Map.delete`.  Deleting or ending removes every entry with
the given key/identity, which coincides with the single-entry semantics of
the JS `Map` under that invariant. -/

structure SshState where
  connections : List (String × Nat)
  openClients : List (Nat × String)
  nextClient : Nat

def initialSshState : SshState := ⟨[], [], 0⟩

def mapGet (ip : String) : List (String × Nat) → Option Nat
  | [] => none
  | (k, c) :: rest => if k = ip then some c else mapGet ip rest

def mapDelete (ip : String) : List (String × Nat) → List (String × Nat)
  | [] => []
  | (k, c) :: rest => if k = ip then mapDelete ip rest else (k, c) :: mapDelete ip rest

def removeClient (c : Nat) : List (Nat × String) → List (Nat × String)
  | [] => []
  | (c', a) :: rest => if c' = c then removeClient c rest else (c', a) :: removeClient c rest

def closeConnection (ip : String) (s : SshState) : SshState :=
  match mapGet ip s.connections with
  | none => s
  | some c =>
    { s with connections := mapDelete ip s.connections
           , openClients := removeClient c s.openClients }

def connect (ip : String) (ok : Bool) (s : SshState) : SshState :=
  let s1 := closeConnection ip s
  let c := s1.nextClient
  if ok then
    { connections := (ip, c) :: s1.connections
    , openClients := (c, ip) :: s1.openClients
    , nextClient := c + 1 }
  else
    { s1 with nextClient := c + 1 }

def quickConnectAttempt (ip : String) (ok : Bool) (s : SshState) : SshState :=
  connect ip ok s

def closeAllConnections (s : SshState) : SshState :=
  { connections := []
  , openClients := s.openClients.filter (fun p => !(p.1 ∈ s.connections.map Prod.snd))
  , nextClient := s.nextClient }

def ensureConnected (ip : String) (ok : Bool) (s : SshState) : SshState :=
  match mapGet ip s.connections with
  | some _ => s
  | none => connect ip ok s

def pollLoop (ip : String) : List Bool → SshState → SshState
  | [], s => s
  | ok :: rest, s =>
    let s1 := quickConnectAttempt ip ok s
    if ok then s1 else pollLoop ip rest s1

def pollForAvailability (ip : String) (outcomes : List Bool) (s : SshState) : SshState :=
  pollLoop ip outcomes (closeConnection ip s)

inductive SshOp where
  | connect (ip : String) (ok : Bool)
  | quickConnect (ip : String) (ok : Bool)
  | close (ip : String)
  | closeAll
  | ensure (ip : String) (ok : Bool)
  | poll (ip : String) (outcomes : List Bool)

def sshStep (s : SshState) : SshOp → SshState
  | .connect ip ok => connect ip ok s
  | .quickConnect ip ok => quickConnectAttempt ip ok s
  | .close ip => closeConnection ip s
  | .closeAll => closeAllConnections s
  | .ensure ip ok => ensureConnected ip ok s
  | .poll ip outcomes => pollForAvailability ip outcomes s

def sshRun (ops : List SshOp) : SshState := ops.foldl sshStep initialSshState

def sessionsFor (addr : String) (s : SshState) : Nat :=
  (s.openClients.filter (fun p => p.2 == addr)).length

structure SshInv (s : SshState) : Prop where
  keysNodup : (s.connections.map Prod.fst).Nodup
  openIdsNodup : (s.openClients.map Prod.fst).Nodup
  registered : ∀ p ∈ s.openClients, mapGet p.2 s.connections = some p.1
  fresh : ∀ p ∈ s.openClients, p.1 < s.nextClient

/- basic lemmas -/

theorem mapDelete_sublist (ip : String) (m : List (String × Nat)) :
    List.Sublist (mapDelete ip m) m := by
  induction m with
  | nil => exact List.Sublist.refl _
  | cons p rest ih =>
    obtain ⟨k, c⟩ := p
    by_cases h : k = ip
    · simp only [mapDelete, if_pos h]
      exact ih.cons _
    · simp only [mapDelete, if_neg h]
      exact ih.cons₂ _

theorem removeClient_sublist (c : Nat) (l : List (Nat × String)) :
    List.Sublist (removeClient c l) l := by
  induction l with
  | nil => exact List.Sublist.refl _
  | cons p rest ih =>
    obtain ⟨c', a⟩ := p
    by_cases h : c' = c
    · simp only [removeClient, if_pos h]
      exact ih.cons _
    · simp only [removeClient, if_neg h]
      exact ih.cons₂ _

theorem mem_removeClient (c : Nat) (l : List (Nat × String)) (p : Nat × String)
    (h : p ∈ removeClient c l) : p ∈ l ∧ p.1 ≠ c := by
  induction l with
  | nil => simp [removeClient] at h
  | cons q rest ih =>
    obtain ⟨c', a⟩ := q
    by_cases hq : c' = c
    · simp only [removeClient, if_pos hq] at h
      exact ⟨List.mem_cons_of_mem _ (ih h).1, (ih h).2⟩
    · simp only [removeClient, if_neg hq] at h
      rcases List.mem_cons.mp h with he | hm
      · subst he
        exact ⟨List.mem_cons_self _ _, hq⟩
      · exact ⟨List.mem_cons_of_mem _ (ih hm).1, (ih hm).2⟩

theorem mapGet_mapDelete_self (ip : String) (m : List (String × Nat)) :
    mapGet ip (mapDelete ip m) = none := by
  induction m with
  | nil => rfl
  | cons p rest ih =>
    obtain ⟨k, c⟩ := p
    by_cases h : k = ip
    · simpa [mapDelete, if_pos h] using ih
    · simpa [mapDelete, mapGet, if_neg h, h] using ih

theorem mapGet_mapDelete_ne (a b : String) (m : List (String × Nat)) (h : a ≠ b) :
    mapGet a (mapDelete b m) = mapGet a m := by
  induction m with
  | nil => rfl
  | cons p rest ih =>
    obtain ⟨k, c⟩ := p
    by_cases hk : k = b
    · have hka : ¬(k = a) := by
        rw [hk]
        exact fun he => h he.symm
      simpa [mapDelete, if_pos hk, mapGet, hka] using ih
    · by_cases ha : k = a
      · simp [mapDelete, mapGet, hk, ha, h]
      · simpa [mapDelete, if_neg hk, mapGet, ha] using ih

theorem mapGet_some_of_mem_keys (ip : String) (m : List (String × Nat))
    (h : ip ∈ m.map Prod.fst) : ∃ c, mapGet ip m = some c := by
  induction m with
  | nil => simp at h
  | cons p rest ih =>
    obtain ⟨k, c⟩ := p
    by_cases hk : k = ip
    · exact ⟨c, by simp [mapGet, hk]⟩
    · simp only [List.map_cons, List.mem_cons] at h
      rcases h with he | hm
      · exact absurd he.symm hk
      · obtain ⟨c', hc'⟩ := ih hm
        exact ⟨c', by simp [mapGet, hk, hc']⟩

/- invariant preservation -/

theorem sshInv_init : SshInv initialSshState := by
  constructor <;> simp [initialSshState]

theorem sshInv_close (ip : String) (s : SshState) (h : SshInv s) :
    SshInv (closeConnection ip s) := by
  unfold closeConnection
  cases hc : mapGet ip s.connections with
  | none => exact h
  | some c =>
    constructor
    · exact h.keysNodup.sublist ((mapDelete_sublist ip s.connections).map Prod.fst)
    · exact h.openIdsNodup.sublist ((removeClient_sublist c s.openClients).map Prod.fst)
    · intro p hp
      obtain ⟨hmem, hne⟩ := mem_removeClient c s.openClients p hp
      have hreg := h.registered p hmem
      have hip : p.2 ≠ ip := by
        intro he
        rw [he, hc] at hreg
        exact hne (Option.some.inj hreg).symm
      rw [mapGet_mapDelete_ne _ _ _ hip]
      exact hreg
    · intro p hp
      exact h.fresh p ((removeClient_sublist c s.openClients).mem hp)

theorem closeConnection_get_none (ip : String) (s : SshState) :
    mapGet ip (closeConnection ip s).connections = none := by
  unfold closeConnection
  cases hc : mapGet ip s.connections with
  | none => exact hc
  | some c => exact mapGet_mapDelete_self ip s.connections

theorem connect_true_eq (ip : String) (s : SshState) :
    connect ip true s =
      { connections := (ip, (closeConnection ip s).nextClient)
            :: (closeConnection ip s).connections
      , openClients := ((closeConnection ip s).nextClient, ip)
            :: (closeConnection ip s).openClients
      , nextClient := (closeConnection ip s).nextClient + 1 } := rfl

theorem connect_false_eq (ip : String) (s : SshState) :
    connect ip false s =
      { closeConnection ip s with nextClient := (closeConnection ip s).nextClient + 1 } := rfl

theorem sshInv_connect (ip : String) (ok : Bool) (s : SshState) (h : SshInv s) :
    SshInv (connect ip ok s) := by
  have h1 := sshInv_close ip s h
  have hget := closeConnection_get_none ip s
  cases ok with
  | false =>
    rw [connect_false_eq]
    exact ⟨h1.keysNodup, h1.openIdsNodup, h1.registered,
      fun p hp => Nat.lt_succ_of_lt (h1.fresh p hp)⟩
  | true =>
    rw [connect_true_eq]
    constructor
    · simp only [List.map_cons, List.nodup_cons]
      refine ⟨fun hmem => ?_, h1.keysNodup⟩
      obtain ⟨c', hc'⟩ := mapGet_some_of_mem_keys ip _ hmem
      rw [hget] at hc'
      exact Option.noConfusion hc'
    · simp only [List.map_cons, List.nodup_cons]
      refine ⟨fun hmem => ?_, h1.openIdsNodup⟩
      obtain ⟨q, hq, hqe⟩ := List.mem_map.mp hmem
      have := h1.fresh q hq
      omega
    · intro p hp
      rcases List.mem_cons.mp hp with he | hm
      · subst he
        simp [mapGet]
      · have hreg := h1.registered p hm
        by_cases hip : p.2 = ip
        · rw [hip, hget] at hreg
          exact absurd hreg (by simp)
        · have : ¬(ip = p.2) := fun he => hip he.symm
          simpa [mapGet, this] using hreg
    · intro p hp
      rcases List.mem_cons.mp hp with he | hm
      · subst he
        exact Nat.lt_succ_self _
      · exact Nat.lt_succ_of_lt (h1.fresh p hm)

theorem mapGet_value_mem (ip : String) (m : List (String × Nat)) (c : Nat)
    (h : mapGet ip m = some c) : c ∈ m.map Prod.snd := by
  induction m with
  | nil => simp [mapGet] at h
  | cons p rest ih =>
    obtain ⟨k, v⟩ := p
    by_cases hk : k = ip
    · simp only [mapGet, if_pos hk] at h
      simp [Option.some.inj h]
    · simp only [mapGet, if_neg hk] at h
      simp [ih h]

theorem sshInv_closeAll (s : SshState) (h : SshInv s) :
    SshInv (closeAllConnections s) := by
  have hopen : s.openClients.filter (fun p => !(p.1 ∈ s.connections.map Prod.snd)) = [] := by
    rw [List.filter_eq_nil_iff]
    intro p hp
    simp [mapGet_value_mem p.2 s.connections p.1 (h.registered p hp)]
  unfold closeAllConnections
  rw [hopen]
  constructor <;> simp

theorem sshInv_ensure (ip : String) (ok : Bool) (s : SshState) (h : SshInv s) :
    SshInv (ensureConnected ip ok s) := by
  unfold ensureConnected
  cases mapGet ip s.connections with
  | none => exact sshInv_connect ip ok s h
  | some c => exact h

theorem sshInv_pollLoop (ip : String) (outcomes : List Bool) (s : SshState) (h : SshInv s) :
    SshInv (pollLoop ip outcomes s) := by
  induction outcomes generalizing s with
  | nil => exact h
  | cons ok rest ih =>
    unfold pollLoop
    cases ok with
    | false => exact ih _ (sshInv_connect ip false s h)
    | true => simpa using sshInv_connect ip true s h

theorem sshInv_step (s : SshState) (op : SshOp) (h : SshInv s) : SshInv (sshStep s op) := by
  cases op with
  | connect ip ok => exact sshInv_connect ip ok s h
  | quickConnect ip ok => exact sshInv_connect ip ok s h
  | close ip => exact sshInv_close ip s h
  | closeAll => exact sshInv_closeAll s h
  | ensure ip ok => exact sshInv_ensure ip ok s h
  | poll ip outcomes => exact sshInv_pollLoop ip outcomes _ (sshInv_close ip s h)

theorem sshInv_run (ops : List SshOp) : SshInv (sshRun ops) := by
  suffices hgen : ∀ (l : List SshOp) (s : SshState), SshInv s → SshInv (l.foldl sshStep s) by
    exact hgen ops initialSshState sshInv_init
  intro l
  induction l with
  | nil => exact fun s h => h
  | cons op rest ih => exact fun s h => ih _ (sshInv_step s op h)

theorem length_le_one_of_nodup_const {α : Type} (l : List α) (a : α)
    (hn : l.Nodup) (hall : ∀ x ∈ l, x = a) : l.length ≤ 1 := by
  match l with
  | [] => simp
  | [x] => simp
  | x :: y :: rest =>
    exfalso
    have hx := hall x (by simp)
    have hy := hall y (by simp)
    subst hx
    rw [List.nodup_cons] at hn
    exact hn.1 (by simp [hy.symm])

theorem sessionsFor_le_one (addr : String) (s : SshState) (h : SshInv s) :
    sessionsFor addr s ≤ 1 := by
  unfold sessionsFor
  cases hc : mapGet addr s.connections with
  | none =>
    have : s.openClients.filter (fun p => p.2 == addr) = [] := by
      rw [List.filter_eq_nil_iff]
      intro p hp hpa
      have hreg := h.registered p hp
      rw [beq_iff_eq] at hpa
      rw [hpa, hc] at hreg
      exact Option.noConfusion hreg
    simp [this]
  | some c =>
    apply length_le_one_of_nodup_const _ (c, addr)
    · exact List.Nodup.of_map Prod.fst
        (h.openIdsNodup.sublist ((List.filter_sublist _).map Prod.fst))
    · intro p hp
      rw [List.mem_filter, beq_iff_eq] at hp
      obtain ⟨hmem, hpa⟩ := hp
      have hreg := h.registered p hmem
      rw [hpa, hc] at hreg
      have hp1 : p.1 = c := (Option.some.inj hreg).symm
      obtain ⟨p1, p2⟩ := p
      simp only at hpa hp1
      subst hpa
      subst hp1
      rfl

/-- C4: at most one live session per address at any time — the registry
invariant holds in every state reachable from the initial state by any
sequence of connector operations, so `sessionsFor addr` never exceeds 1;
in particular calling `connect(addr)` twice in succession (with any
outcomes) never leaves two simultaneous sessions open for `addr`, and
`connect` has torn the prior registration down before storing a new one
(`closeConnection` leaves no registered client for the address). -/
theorem C4_single_session_per_address (ops : List SshOp) (addr : String) (ok1 ok2 : Bool) :
    sessionsFor addr (sshRun ops) ≤ 1 ∧
    mapGet addr (closeConnection addr (sshRun ops)).connections = none ∧
    sessionsFor addr (connect addr ok2 (connect addr ok1 (sshRun ops))) ≤ 1 :=
  ⟨sessionsFor_le_one addr _ (sshInv_run ops),
   closeConnection_get_none addr (sshRun ops),
   sessionsFor_le_one addr _
     (sshInv_connect addr ok2 _ (sshInv_connect addr ok1 _ (sshInv_run ops)))⟩

end TollGate
